import Mathlib

/-!
# Verification of the MOL2 charge rewriter of `resp2.py`

Shallow embedding of `create_charge_file` (src/resp2/resp2.py, lines 581-685).
Text lines are modelled as Lean `String`s carrying their trailing newline,
exactly as Python's `readlines` delivers them.  Python floats are modelled as
exact rationals (`ℚ`): every charge arithmetic step of the source is a plain
linear combination, which we embed exactly.
-/

attribute [local semireducible] Rat.add Rat.mul Rat.sub Rat.inv

namespace Resp2

/-- Python `str.split()` whitespace set (the characters relevant to text
lines: space, tab, newline, carriage return, vertical tab, form feed). -/
def pyIsSpace (c : Char) : Bool :=
  c = ' ' || c = '\t' || c = '\n' || c = '\r' || c = '\x0b' || c = '\x0c'

/-- Worker for `pySplit`: scan characters, accumulating the current token
reversed; whitespace runs separate tokens and produce no empty tokens. -/
def splitWsAux : List Char → List Char → List String
  | [], cur => if cur = [] then [] else [String.mk cur.reverse]
  | c :: t, cur =>
    if pyIsSpace c then
      if cur = [] then splitWsAux t []
      else String.mk cur.reverse :: splitWsAux t []
    else splitWsAux t (c :: cur)

/-- Python's `line.split()`: split on runs of whitespace, dropping empties. -/
def pySplit (s : String) : List String :=
  splitWsAux s.toList []

/-- Substring containment on character lists (Python's `sub in s`). -/
def listContainsSub : List Char → List Char → Bool
  | [], sub => sub.isEmpty
  | l@(_ :: t), sub => List.isPrefixOf sub l || listContainsSub t sub

/-- Python's `sub in s` on strings. -/
def containsSub (s sub : String) : Bool :=
  listContainsSub s.toList sub.toList

/-- Python's `s.startswith(pre)`. -/
def pyStartsWith (s pre : String) : Bool :=
  List.isPrefixOf pre.toList s.toList

/-- The atom-section marker of the TRIPOS MOL2 format. -/
def atomMarker : String := "@<TRIPOS>ATOM"

/-- The bond-section marker of the TRIPOS MOL2 format. -/
def bondMarker : String := "@<TRIPOS>BOND"

/-- Take the leading run of decimal digits of a character list. -/
def takeDigits : List Char → List Char × List Char
  | [] => ([], [])
  | c :: t =>
    if c.isDigit then
      let p := takeDigits t
      (c :: p.1, p.2)
    else ([], c :: t)

/-- Numeric value of a digit string. -/
def digitsVal (ds : List Char) : Nat :=
  ds.foldl (fun n c => n * 10 + (c.toNat - 48)) 0

/-- Python's `float(s)` on the decimal literals that occur in MOL2 charge
columns: optional sign, digits, optional fraction, optional exponent
(`inf`/`nan` and digit underscores are outside the format and unmodelled).
The value is kept exactly as a rational. -/
def parsePyFloat (s : String) : Option ℚ :=
  let cs := s.toList
  let sgn : Bool × List Char :=
    match cs with
    | '+' :: t => (false, t)
    | '-' :: t => (true, t)
    | _ => (false, cs)
  let p1 := takeDigits sgn.2
  let p2 : List Char × List Char :=
    match p1.2 with
    | '.' :: t => takeDigits t
    | _ => ([], p1.2)
  if p1.1 = [] ∧ p2.1 = [] then none
  else
    let mantNum : Int := Int.ofNat (digitsVal p1.1 * 10 ^ p2.1.length + digitsVal p2.1)
    let num : Int := if sgn.1 then -mantNum else mantNum
    match p2.2 with
    | [] => some (mkRat num (10 ^ p2.1.length))
    | e :: t =>
      if e = 'e' ∨ e = 'E' then
        let esgn : Bool × List Char :=
          match t with
          | '+' :: u => (false, u)
          | '-' :: u => (true, u)
          | _ => (false, t)
        let p3 := takeDigits esgn.2
        if p3.1 = [] ∨ p3.2 ≠ [] then none
        else if esgn.1 then some (mkRat num (10 ^ (p2.1.length + digitsVal p3.1)))
        else some (mkRat (num * Int.ofNat (10 ^ digitsVal p3.1)) (10 ^ p2.1.length))
      else none

/-- The charge-reading loop of `create_charge_file` (both branches use the
same loop, source lines 598-609 / 624-648): state `v` starts at 0, becomes 1
on a line containing `@<TRIPOS>ATOM`, 2 on a line containing `@<TRIPOS>BOND`;
while `v = 1` each line is split and `float(entry[8])` is appended.  A missing
9th token (`IndexError`) or a non-numeric one (`ValueError`) aborts the call:
modelled as `none`. -/
def parseLoop (v : Nat) (acc : List ℚ) : List String → Option (List ℚ)
  | [] => some acc
  | line :: rest =>
    if containsSub line atomMarker then parseLoop 1 acc rest
    else if containsSub line bondMarker then parseLoop 2 acc rest
    else if v = 1 then
      match (pySplit line)[8]? with
      | none => none
      | some tok =>
        match parsePyFloat tok with
        | none => none
        | some q => parseLoop v (acc ++ [q]) rest
    else parseLoop v acc rest

/-- Charges extracted from a MOL2 file's lines (source lines 598-609). -/
def parseCharges (lines : List String) : Option (List ℚ) :=
  parseLoop 0 [] lines

/-- RESP1 charge scaling (source lines 611-613):
`for i in range(len(resp1charges)): charges.append(resp1charges[i] * delta)`. -/
def scaleRESP1 (cs : List ℚ) (d : ℚ) : List ℚ :=
  cs.map (fun c => c * d)

/-- Effectful map over `Option`: the first `none` aborts the whole list. -/
def optMapM {α β : Type} (f : α → Option β) : List α → Option (List β)
  | [] => some []
  | a :: t =>
    match f a with
    | none => none
    | some b =>
      match optMapM f t with
      | none => none
      | some bs => some (b :: bs)

/-- RESP2 charge mixing (source lines 652-654):
`for i in range(len(isc)): charges.append(gpc[i] * (1.0 - delta) + isc[i] * delta)`.
The loop runs over the condensed-phase length; `gpc[i]` can raise
`IndexError`, modelled as `none`.  `isc[i]` is always in bounds. -/
def mixRESP2 (gpc isc : List ℚ) (d : ℚ) : Option (List ℚ) :=
  optMapM (fun i =>
    match gpc[i]? with
    | some g => some (g * (1 - d) + isc.getD i 0 * d)
    | none => none) (List.range isc.length)

/-- The value list produced by RESP2 mixing when no index error occurs. -/
def mixVals (gpc isc : List ℚ) (d : ℚ) : List ℚ :=
  (List.range isc.length).map (fun i => gpc.getD i 0 * (1 - d) + isc.getD i 0 * d)

/-- A string of `n` spaces. -/
def spaces (n : Nat) : String :=
  String.mk (List.replicate n ' ')

/-- Python's `"{:>w}".format(s)`: right-align in a field of width `w`,
no padding when the string is already at least that wide. -/
def padLeft (s : String) (w : Nat) : String :=
  spaces (w - s.length) ++ s

/-- Python's `"{:<w}".format(s)`: left-align in a field of width `w`. -/
def padRight (s : String) (w : Nat) : String :=
  s ++ spaces (w - s.length)

/-- Decimal digits of `n` (fuelled; fuel `n + 1` always suffices). -/
def natDigits : Nat → Nat → List Char
  | 0, _ => []
  | fuel + 1, n =>
    if n < 10 then [Char.ofNat (48 + n)]
    else natDigits fuel (n / 10) ++ [Char.ofNat (48 + n % 10)]

/-- Decimal rendering of a natural number. -/
def natStr (n : Nat) : String :=
  String.mk (natDigits (n + 1) n)

/-- Render `m < 10000` with leading zeros to exactly four digits. -/
def zeroPad4 (m : Nat) : String :=
  String.mk (List.replicate (4 - (natDigits (m + 1) m).length) '0') ++ natStr m

/-- Python's `"{:.4f}".format(q)`: fixed-point with exactly four decimals.
The magnitude is rounded to the nearest 1/10000 — `n` below computes
`floor(|q| * 10000 + 1/2)` in integer arithmetic (charges in this pipeline
are exact four-decimal values, so the tie-breaking rule is never
exercised); the sign is taken from the value itself, as Python does. -/
def fixed4 (q : ℚ) : String :=
  let n : Nat := (q.num.natAbs * 10000 * 2 + q.den) / (2 * q.den)
  let sgn : String := if q.num < 0 then "-" else ""
  sgn ++ natStr (n / 10000) ++ "." ++ zeroPad4 (n % 10000)

/-- The atom-line template of the writer (source lines 674-678):
`"{:>7} {:<3}{:>15}{:>10}{:>10} {:<3}{:>8}{:>5}{:>14.4f} \n"` applied to
the first seven tokens of the original line, the target residue name, and
the newly computed charge. -/
def mkAtomLine (e0 e1 e2 e3 e4 e5 e6 rn : String) (q : ℚ) : String :=
  padLeft e0 7 ++ " " ++ padRight e1 3 ++ padLeft e2 15 ++ padLeft e3 10 ++
    padLeft e4 10 ++ " " ++ padRight e5 3 ++ padLeft e6 8 ++ padLeft rn 5 ++
    padLeft (fixed4 q) 14 ++ " \n"

/-- Emission of one atom line from its token list: the source reads
`entry[0]` … `entry[6]`, so fewer than seven tokens is an `IndexError`
(`none`); any tokens beyond the seventh are ignored. -/
def emitTokens? (rn : String) (q : ℚ) : List String → Option String
  | e0 :: e1 :: e2 :: e3 :: e4 :: e5 :: e6 :: _ =>
    some (mkAtomLine e0 e1 e2 e3 e4 e5 e6 rn q)
  | _ => none

/-- Emission of one atom line from the raw line (tokenize, then format). -/
def emitAtom? (rn : String) (q : ℚ) (l : String) : Option String :=
  emitTokens? rn q (pySplit l)

/-- The molecule-name test of source line 663:
`lines[1].startswith('***') or lines[1].startswith('resp_gas') or
lines[1].startswith('mol1_conf1')`. -/
def substCond (l : String) : Bool :=
  pyStartsWith l "***" || pyStartsWith l "resp_gas" || pyStartsWith l "mol1_conf1"

/-- Source lines 663-664: `lines[1]` is inspected (an `IndexError`, hence
`none`, on a file of fewer than two lines) and replaced by
`'{}\n'.format(resname)` when it starts with a known placeholder prefix. -/
def substituteName (rn : String) (lines : List String) : Option (List String) :=
  match lines with
  | l0 :: l1 :: rest =>
    some (if substCond l1 then l0 :: (rn ++ "\n") :: rest else l0 :: l1 :: rest)
  | _ => none

/-- The write loop of `create_charge_file` (source lines 665-681), carrying
the section state `v`, the atom counter `num`, and the lines written so far.
Marker lines and lines outside the atom section are written verbatim; while
`v = 1` a line is re-emitted through the fixed-width template, consuming
`charges[num]` — an `IndexError` on `charges[num]` or on `entry[0..6]` aborts
the call, leaving exactly the lines already written (first component) and a
failure flag. -/
def writeLoop (rn : String) (charges : List ℚ) :
    Nat → Nat → List String → List String → List String × Bool
  | _, _, out, [] => (out, true)
  | v, num, out, line :: rest =>
    if containsSub line atomMarker then
      writeLoop rn charges 1 num (out ++ [line]) rest
    else if containsSub line bondMarker then
      writeLoop rn charges 2 num (out ++ [line]) rest
    else if v = 1 then
      match charges[num]? with
      | none => (out, false)
      | some q =>
        match emitAtom? rn q line with
        | none => (out, false)
        | some s => writeLoop rn charges v (num + 1) (out ++ [s]) rest
    else writeLoop rn charges v num (out ++ [line]) rest

/-- The atom lines the write loop emits for `atoms`, starting at charge
index `num` (junk `""` stands in where the loop would instead abort). -/
def fmtFrom (rn : String) (charges : List ℚ) : Nat → List String → List String
  | _, [] => []
  | num, a :: as =>
    ((charges[num]?).bind (fun q => emitAtom? rn q a)).getD "" ::
      fmtFrom rn charges (num + 1) as

/-- Observable outcome of one `create_charge_file` call on the output file:
the source opens the output at its final path (truncating it) before any
parsing, so after the call the file at that path holds exactly `content`;
`ok` records whether the call ran to completion rather than raising. -/
structure OutFile where
  content : List String
  ok : Bool
deriving DecidableEq

/-- The RESP1 branch of `create_charge_file` (source lines 591-613 plus the
shared writer): parse the single file's charges, scale them by `delta`,
substitute the molecule name, and rewrite.  Any failure leaves the output
file with whatever had been written by then. -/
def resp1Run (lines : List String) (rn : String) (d : ℚ) : OutFile :=
  match parseCharges lines with
  | none => ⟨[], false⟩
  | some cs =>
    match substituteName rn lines with
    | none => ⟨[], false⟩
    | some lines2 =>
      let r := writeLoop rn (scaleRESP1 cs d) 0 0 [] lines2
      ⟨r.1, r.2⟩

/-- The RESP2 branch of `create_charge_file` (source lines 615-654 plus the
shared writer): parse gas-phase and condensed-phase charges, mix them, then
rewrite the gas-phase file's lines with the mixed charges. -/
def resp2Run (gasLines liquidLines : List String) (rn : String) (d : ℚ) : OutFile :=
  match parseCharges gasLines with
  | none => ⟨[], false⟩
  | some gpc =>
    match parseCharges liquidLines with
    | none => ⟨[], false⟩
    | some isc =>
      match mixRESP2 gpc isc d with
      | none => ⟨[], false⟩
      | some charges =>
        match substituteName rn gasLines with
        | none => ⟨[], false⟩
        | some lines2 =>
          let r := writeLoop rn charges 0 0 [] lines2
          ⟨r.1, r.2⟩

/-- A line containing neither section marker. -/
def noMarkers (l : String) : Bool :=
  !containsSub l atomMarker && !containsSub l bondMarker

/-- A line not containing the atom-section marker. -/
def noAtomMarker (l : String) : Bool :=
  !containsSub l atomMarker

/-- A well-formed atom data line: no section marker, and a 9th
whitespace-delimited token that parses as a float. -/
def goodAtom (l : String) : Bool :=
  noMarkers l && (((pySplit l)[8]?).bind parsePyFloat).isSome

/-- The charge a well-formed atom line carries (junk 0 on malformed lines). -/
def chargeOf (l : String) : ℚ :=
  ((((pySplit l)[8]?).bind parsePyFloat)).getD 0

/-! ## Lemmas about the mixing functions -/

lemma mapM_opt_eq_map {α β : Type} (f : α → Option β) (g : α → β) :
    ∀ l : List α, (∀ a ∈ l, f a = some (g a)) → optMapM f l = some (l.map g) := by
  intro l
  induction l with
  | nil => intro _; rfl
  | cons a t ih =>
    intro h
    have ha := h a (List.mem_cons_self a t)
    have ht := ih (fun x hx => h x (List.mem_cons_of_mem a hx))
    simp [optMapM, ha, ht]

lemma mapM_opt_eq_none {α β : Type} (f : α → Option β) :
    ∀ (l : List α) (a : α), a ∈ l → f a = none → optMapM f l = none := by
  intro l
  induction l with
  | nil => intro a ha; exact absurd ha (List.not_mem_nil a)
  | cons b t ih =>
    intro a ha hf
    rcases List.mem_cons.mp ha with h | h
    · subst h; simp [optMapM, hf]
    · cases hb : f b with
      | none => simp [optMapM, hb]
      | some v => simp [optMapM, hb, ih a h hf]

lemma mixRESP2_of_le (gpc isc : List ℚ) (d : ℚ) (h : isc.length ≤ gpc.length) :
    mixRESP2 gpc isc d = some (mixVals gpc isc d) := by
  unfold mixRESP2 mixVals
  apply mapM_opt_eq_map
  intro i hi
  have hlt : i < gpc.length := lt_of_lt_of_le (List.mem_range.mp hi) h
  have : gpc[i]? = some gpc[i] := List.getElem?_eq_getElem hlt
  simp [this, List.getD_eq_getElem?_getD, List.getElem?_eq_getElem hlt]

lemma mixRESP2_of_lt (gpc isc : List ℚ) (d : ℚ) (h : gpc.length < isc.length) :
    mixRESP2 gpc isc d = none := by
  unfold mixRESP2
  apply mapM_opt_eq_none _ _ gpc.length (List.mem_range.mpr h)
  simp [List.getElem?_eq_none (Nat.le_refl _)]

lemma mixVals_length (gpc isc : List ℚ) (d : ℚ) :
    (mixVals gpc isc d).length = isc.length := by
  simp [mixVals]

lemma mixVals_getD (gpc isc : List ℚ) (d : ℚ) (i : Nat) (h : i < isc.length) :
    (mixVals gpc isc d).getD i 0 = gpc.getD i 0 * (1 - d) + isc.getD i 0 * d := by
  simp [mixVals, List.getD_eq_getElem?_getD, List.getElem?_map, List.getElem?_range h]

/-! ## Lemmas about the charge-reading loop -/

lemma parseLoop_nomark (ls : List String) :
    ∀ (v : Nat) (acc : List ℚ) (rest : List String), v ≠ 1 →
      (∀ l ∈ ls, noMarkers l = true) →
      parseLoop v acc (ls ++ rest) = parseLoop v acc rest := by
  induction ls with
  | nil => intro v acc rest _ _; rfl
  | cons a t ih =>
    intro v acc rest hv h
    have ha := h a (List.mem_cons_self a t)
    simp only [noMarkers, Bool.and_eq_true, Bool.not_eq_true'] at ha
    simp only [List.cons_append, parseLoop, ha.1, ha.2, Bool.false_eq_true,
      if_false, if_neg hv]
    exact ih v acc rest hv (fun x hx => h x (List.mem_cons_of_mem a hx))

lemma parseLoop_tail (ls : List String) :
    ∀ (v : Nat) (acc : List ℚ), v ≠ 1 →
      (∀ l ∈ ls, noAtomMarker l = true) →
      parseLoop v acc ls = some acc := by
  induction ls with
  | nil => intro v acc _ _; rfl
  | cons a t ih =>
    intro v acc hv h
    have ha := h a (List.mem_cons_self a t)
    simp only [noAtomMarker, Bool.not_eq_true'] at ha
    have ht := fun x hx => h x (List.mem_cons_of_mem a hx)
    by_cases hb : containsSub a bondMarker
    · simp only [parseLoop, ha, Bool.false_eq_true, if_false, hb, if_true]
      exact ih 2 acc (by decide) ht
    · simp only [parseLoop, ha, Bool.false_eq_true, if_false, hb, if_neg hv]
      exact ih v acc hv ht

lemma goodAtom_charge (l : String) (h : goodAtom l = true) :
    ∃ tok q, (pySplit l)[8]? = some tok ∧ parsePyFloat tok = some q ∧ chargeOf l = q := by
  simp only [goodAtom, Bool.and_eq_true, Option.isSome_iff_exists] at h
  obtain ⟨-, q, hq⟩ := h
  obtain ⟨tok, htok, hqq⟩ := Option.bind_eq_some.mp hq
  exact ⟨tok, q, htok, hqq, by simp [chargeOf, htok, hqq]⟩

lemma parseLoop_atoms (atoms : List String) :
    ∀ (acc : List ℚ) (rest : List String),
      (∀ l ∈ atoms, goodAtom l = true) →
      parseLoop 1 acc (atoms ++ rest) = parseLoop 1 (acc ++ atoms.map chargeOf) rest := by
  induction atoms with
  | nil => intro acc rest _; simp
  | cons a t ih =>
    intro acc rest h
    have ha := h a (List.mem_cons_self a t)
    have hm : noMarkers a = true := by
      simp only [goodAtom, Bool.and_eq_true] at ha; exact ha.1
    simp only [noMarkers, Bool.and_eq_true, Bool.not_eq_true'] at hm
    obtain ⟨tok, q, htok, hq, hcq⟩ := goodAtom_charge a ha
    simp only [List.cons_append, parseLoop, hm.1, hm.2, Bool.false_eq_true, if_false,
      htok, hq, reduceIte, List.append_eq]
    rw [ih (acc ++ [q]) rest (fun x hx => h x (List.mem_cons_of_mem a hx))]
    simp [hcq]

/-- The parser on a fully structured MOL2 line list: the charges are exactly
those of the atom block, in order. -/
lemma parseCharges_structured (h0 h1 : String) (hs atoms trailer : List String)
    (am bm : String)
    (hh0 : noMarkers h0 = true) (hh1 : noMarkers h1 = true)
    (hhs : ∀ l ∈ hs, noMarkers l = true)
    (ham : containsSub am atomMarker = true)
    (hbm1 : containsSub bm atomMarker = false)
    (hbm2 : containsSub bm bondMarker = true)
    (htr : ∀ l ∈ trailer, noAtomMarker l = true)
    (hat : ∀ l ∈ atoms, goodAtom l = true) :
    parseCharges (h0 :: h1 :: hs ++ am :: (atoms ++ bm :: trailer)) =
      some (atoms.map chargeOf) := by
  unfold parseCharges
  have hhd : ∀ l ∈ h0 :: h1 :: hs, noMarkers l = true := by
    intro l hl
    rcases List.mem_cons.mp hl with h | hl
    · subst h; exact hh0
    rcases List.mem_cons.mp hl with h | hl
    · subst h; exact hh1
    · exact hhs l hl
  have e1 : (h0 :: h1 :: hs) ++ am :: (atoms ++ bm :: trailer) =
      h0 :: h1 :: hs ++ am :: (atoms ++ bm :: trailer) := by simp
  rw [← e1, parseLoop_nomark (h0 :: h1 :: hs) 0 [] _ (by decide) hhd]
  simp only [parseLoop, ham, if_true]
  rw [parseLoop_atoms atoms [] (bm :: trailer) hat]
  simp only [parseLoop, hbm1, Bool.false_eq_true, if_false, hbm2, if_true]
  exact parseLoop_tail trailer 2 _ (by decide) htr

/-! ## Lemmas about the write loop -/

lemma emitTokens?_isSome (rn : String) (q : ℚ) (entry : List String)
    (h : 7 ≤ entry.length) : (emitTokens? rn q entry).isSome = true := by
  rcases entry with _ | ⟨e0, _ | ⟨e1, _ | ⟨e2, _ | ⟨e3, _ | ⟨e4, _ | ⟨e5, _ | ⟨e6, rest⟩⟩⟩⟩⟩⟩⟩ <;>
    first
      | rfl
      | (simp only [List.length_nil, List.length_cons] at h; omega)

lemma emitAtom?_of_goodAtom (rn : String) (q : ℚ) (l : String)
    (h : goodAtom l = true) : ∃ s, emitAtom? rn q l = some s := by
  obtain ⟨tok, q', htok, -, -⟩ := goodAtom_charge l h
  have hlen : 8 < (pySplit l).length := (List.getElem?_eq_some.mp htok).1
  have := emitTokens?_isSome rn q (pySplit l) (by omega)
  exact Option.isSome_iff_exists.mp this

lemma writeLoop_nomark (rn : String) (charges : List ℚ) (ls : List String) :
    ∀ (v num : Nat) (out rest : List String), v ≠ 1 →
      (∀ l ∈ ls, noMarkers l = true) →
      writeLoop rn charges v num out (ls ++ rest) =
        writeLoop rn charges v num (out ++ ls) rest := by
  induction ls with
  | nil => intro v num out rest _ _; simp
  | cons a t ih =>
    intro v num out rest hv h
    have ha := h a (List.mem_cons_self a t)
    simp only [noMarkers, Bool.and_eq_true, Bool.not_eq_true'] at ha
    simp only [List.cons_append, writeLoop, ha.1, ha.2, Bool.false_eq_true, if_false,
      if_neg hv, List.append_eq]
    rw [ih v num (out ++ [a]) rest hv (fun x hx => h x (List.mem_cons_of_mem a hx))]
    simp

lemma writeLoop_tail (rn : String) (charges : List ℚ) (ls : List String) :
    ∀ (v num : Nat) (out : List String), v ≠ 1 →
      (∀ l ∈ ls, noAtomMarker l = true) →
      writeLoop rn charges v num out ls = (out ++ ls, true) := by
  induction ls with
  | nil => intro v num out _ _; simp [writeLoop]
  | cons a t ih =>
    intro v num out hv h
    have ha := h a (List.mem_cons_self a t)
    simp only [noAtomMarker, Bool.not_eq_true'] at ha
    have ht := fun x hx => h x (List.mem_cons_of_mem a hx)
    by_cases hb : containsSub a bondMarker
    · simp only [writeLoop, ha, Bool.false_eq_true, if_false, hb, if_true]
      rw [ih 2 num (out ++ [a]) (by decide) ht]
      simp
    · simp only [writeLoop, ha, Bool.false_eq_true, if_false, hb, if_neg hv]
      rw [ih v num (out ++ [a]) hv ht]
      simp

lemma writeLoop_atoms (rn : String) (charges : List ℚ) (atoms : List String) :
    ∀ (num : Nat) (out rest : List String),
      (∀ l ∈ atoms, goodAtom l = true) →
      num + atoms.length ≤ charges.length →
      writeLoop rn charges 1 num out (atoms ++ rest) =
        writeLoop rn charges 1 (num + atoms.length) (out ++ fmtFrom rn charges num atoms)
          rest := by
  induction atoms with
  | nil => intro num out rest _ _; simp [fmtFrom]
  | cons a t ih =>
    intro num out rest h hb
    have ha := h a (List.mem_cons_self a t)
    have hm : noMarkers a = true := by
      simp only [goodAtom, Bool.and_eq_true] at ha; exact ha.1
    simp only [noMarkers, Bool.and_eq_true, Bool.not_eq_true'] at hm
    have hnum : num < charges.length := by
      simp only [List.length_cons] at hb; omega
    have hq : charges[num]? = some charges[num] := List.getElem?_eq_getElem hnum
    obtain ⟨s, hs⟩ := emitAtom?_of_goodAtom rn charges[num] a ha
    simp only [List.cons_append, writeLoop, hm.1, hm.2, Bool.false_eq_true, if_false,
      reduceIte, hq, hs, List.append_eq]
    rw [ih (num + 1) (out ++ [s]) rest (fun x hx => h x (List.mem_cons_of_mem a hx))
      (by simp only [List.length_cons] at hb; omega)]
    have e2 : fmtFrom rn charges num (a :: t) = s :: fmtFrom rn charges (num + 1) t := by
      simp [fmtFrom, hq, hs]
    rw [e2]
    have e3 : num + 1 + t.length = num + (a :: t).length := by
      simp only [List.length_cons]; omega
    rw [e3]
    simp

lemma writeLoop_atoms_fail (rn : String) (charges : List ℚ) (atoms : List String) :
    ∀ (num : Nat) (out rest : List String),
      (∀ l ∈ atoms, goodAtom l = true) →
      num ≤ charges.length →
      charges.length < num + atoms.length →
      writeLoop rn charges 1 num out (atoms ++ rest) =
        (out ++ fmtFrom rn charges num (atoms.take (charges.length - num)), false) := by
  induction atoms with
  | nil =>
    intro num out rest _ hle hlt
    simp only [List.length_nil] at hlt
    omega
  | cons a t ih =>
    intro num out rest h hle hlt
    have ha := h a (List.mem_cons_self a t)
    have hm : noMarkers a = true := by
      simp only [goodAtom, Bool.and_eq_true] at ha; exact ha.1
    simp only [noMarkers, Bool.and_eq_true, Bool.not_eq_true'] at hm
    by_cases hnum : num < charges.length
    · have hq : charges[num]? = some charges[num] := List.getElem?_eq_getElem hnum
      obtain ⟨s, hs⟩ := emitAtom?_of_goodAtom rn charges[num] a ha
      simp only [List.cons_append, writeLoop, hm.1, hm.2, Bool.false_eq_true, if_false,
        reduceIte, hq, hs, List.append_eq]
      rw [ih (num + 1) (out ++ [s]) rest (fun x hx => h x (List.mem_cons_of_mem a hx))
        (by omega) (by simp only [List.length_cons] at hlt ⊢; omega)]
      have e1 : charges.length - num = (charges.length - (num + 1)) + 1 := by omega
      rw [e1]
      simp only [List.take_succ_cons]
      have e2 : fmtFrom rn charges num (a :: (t.take (charges.length - (num + 1)))) =
          s :: fmtFrom rn charges (num + 1) (t.take (charges.length - (num + 1))) := by
        simp [fmtFrom, hq, hs]
      rw [e2]
      simp
    · have heq : charges.length = num := by omega
      have hq : charges[num]? = none := List.getElem?_eq_none (by omega)
      simp only [List.cons_append, writeLoop, hm.1, hm.2, Bool.false_eq_true, if_false,
        reduceIte, hq]
      rw [heq]
      simp [fmtFrom]

lemma fmtFrom_length (rn : String) (charges : List ℚ) :
    ∀ (num : Nat) (atoms : List String),
      (fmtFrom rn charges num atoms).length = atoms.length := by
  intro num atoms
  induction atoms generalizing num with
  | nil => rfl
  | cons a t ih => simp [fmtFrom, ih]

/-- The write loop on a fully structured MOL2 line list with exactly one
charge per atom line: header, markers and trailer are copied verbatim and
each atom line is re-emitted through the template. -/
lemma writeLoop_structured (rn : String) (charges : List ℚ)
    (h0 h1 : String) (hs atoms trailer : List String) (am bm : String)
    (hh0 : noMarkers h0 = true) (hh1 : noMarkers h1 = true)
    (hhs : ∀ l ∈ hs, noMarkers l = true)
    (ham : containsSub am atomMarker = true)
    (hbm1 : containsSub bm atomMarker = false)
    (hbm2 : containsSub bm bondMarker = true)
    (htr : ∀ l ∈ trailer, noAtomMarker l = true)
    (hat : ∀ l ∈ atoms, goodAtom l = true)
    (hlen : charges.length = atoms.length) :
    writeLoop rn charges 0 0 [] (h0 :: h1 :: hs ++ am :: (atoms ++ bm :: trailer)) =
      ((h0 :: h1 :: hs) ++ am :: (fmtFrom rn charges 0 atoms ++ bm :: trailer), true) := by
  have hhd : ∀ l ∈ h0 :: h1 :: hs, noMarkers l = true := by
    intro l hl
    rcases List.mem_cons.mp hl with h | hl
    · subst h; exact hh0
    rcases List.mem_cons.mp hl with h | hl
    · subst h; exact hh1
    · exact hhs l hl
  have e1 : (h0 :: h1 :: hs) ++ am :: (atoms ++ bm :: trailer) =
      h0 :: h1 :: hs ++ am :: (atoms ++ bm :: trailer) := by simp
  rw [← e1, writeLoop_nomark rn charges (h0 :: h1 :: hs) 0 0 [] _ (by decide) hhd]
  simp only [writeLoop, ham, if_true, List.nil_append]
  rw [writeLoop_atoms rn charges atoms 0 ((h0 :: h1 :: hs) ++ [am]) (bm :: trailer) hat
    (by omega)]
  simp only [writeLoop, hbm1, Bool.false_eq_true, if_false, hbm2, if_true]
  rw [writeLoop_tail rn charges trailer 2 _ _ (by decide) htr]
  simp

/-- The write loop on a structured MOL2 line list with fewer charges than
atom lines: the header, the atom marker and the first `charges.length`
re-emitted atom lines are written, then the loop aborts. -/
lemma writeLoop_structured_fail (rn : String) (charges : List ℚ)
    (h0 h1 : String) (hs atoms trailer : List String) (am bm : String)
    (hh0 : noMarkers h0 = true) (hh1 : noMarkers h1 = true)
    (hhs : ∀ l ∈ hs, noMarkers l = true)
    (ham : containsSub am atomMarker = true)
    (hat : ∀ l ∈ atoms, goodAtom l = true)
    (hlen : charges.length < atoms.length) :
    writeLoop rn charges 0 0 [] (h0 :: h1 :: hs ++ am :: (atoms ++ bm :: trailer)) =
      ((h0 :: h1 :: hs) ++ am :: fmtFrom rn charges 0 (atoms.take charges.length),
        false) := by
  have hhd : ∀ l ∈ h0 :: h1 :: hs, noMarkers l = true := by
    intro l hl
    rcases List.mem_cons.mp hl with h | hl
    · subst h; exact hh0
    rcases List.mem_cons.mp hl with h | hl
    · subst h; exact hh1
    · exact hhs l hl
  have e1 : (h0 :: h1 :: hs) ++ am :: (atoms ++ bm :: trailer) =
      h0 :: h1 :: hs ++ am :: (atoms ++ bm :: trailer) := by simp
  rw [← e1, writeLoop_nomark rn charges (h0 :: h1 :: hs) 0 0 [] _ (by decide) hhd]
  simp only [writeLoop, ham, if_true, List.nil_append]
  rw [writeLoop_atoms_fail rn charges atoms 0 ((h0 :: h1 :: hs) ++ [am]) (bm :: trailer)
    hat (by omega) (by omega)]
  simp

lemma substituteName_cons (rn l0 l1 : String) (rest : List String) :
    substituteName rn (l0 :: l1 :: rest) =
      some (if substCond l1 then l0 :: (rn ++ "\n") :: rest else l0 :: l1 :: rest) :=
  rfl

/-! ## Claim theorems -/

/-- Claim C1: in RESP2 mode, for every pair of equal-length charge sequences
and every scalar delta, the i-th output charge equals
`gas_phase_charges[i] * (1 - delta) + condensed_phase_charges[i] * delta`
for every atom index i. -/
theorem resp2_mixing_formula (gpc isc : List ℚ) (d : ℚ)
    (h : gpc.length = isc.length) :
    ∃ out, mixRESP2 gpc isc d = some out ∧ out.length = gpc.length ∧
      ∀ i, i < out.length →
        out.getD i 0 = gpc.getD i 0 * (1 - d) + isc.getD i 0 * d := by
  refine ⟨mixVals gpc isc d, mixRESP2_of_le gpc isc d (le_of_eq h.symm), ?_, ?_⟩
  · rw [mixVals_length, h]
  · intro i hi
    rw [mixVals_length] at hi
    exact mixVals_getD gpc isc d i hi

/-- Claim C1, witness: gas charges `[0.5, -0.5]` and liquid charges
`[0.7, -0.7]` with `delta = 0.5` mix to `[0.6, -0.6]`. -/
theorem resp2_mixing_formula_witness :
    mixRESP2 [mkRat 1 2, mkRat (-1) 2] [mkRat 7 10, mkRat (-7) 10] (mkRat 1 2) =
        some [mkRat 3 5, mkRat (-3) 5] ∧
      (∃ out,
        mixRESP2 [mkRat 1 2, mkRat (-1) 2] [mkRat 7 10, mkRat (-7) 10] (mkRat 1 2) =
            some out ∧
          out.length = 2 ∧
          ∀ i, i < out.length →
            out.getD i 0 =
              ([mkRat 1 2, mkRat (-1) 2] : List ℚ).getD i 0 * (1 - mkRat 1 2) +
                ([mkRat 7 10, mkRat (-7) 10] : List ℚ).getD i 0 * mkRat 1 2) :=
  ⟨by decide,
   resp2_mixing_formula [mkRat 1 2, mkRat (-1) 2] [mkRat 7 10, mkRat (-7) 10]
     (mkRat 1 2) (by decide)⟩

/-- Claim C2, counterexample: the code performs no length check and raises
no error on mismatched lengths — with a gas-phase sequence of length 6 and a
condensed-phase sequence of length 5 it silently produces output (the sixth
gas charge is dropped), so "fails whenever the sequences differ in length"
is false of the code. -/
theorem resp2_no_length_check_counterexample :
    ([1, 1, 1, 1, 1, 1] : List ℚ).length ≠ ([0, 0, 0, 0, 0] : List ℚ).length ∧
      mixRESP2 [1, 1, 1, 1, 1, 1] [0, 0, 0, 0, 0] (mkRat 1 2) =
        some [mkRat 1 2, mkRat 1 2, mkRat 1 2, mkRat 1 2, mkRat 1 2] := by
  constructor
  · decide
  · decide

/-- Claim C2, amended: the code performs no length check and knows no
LengthMismatchError.  The mixing loop runs over the condensed-phase length:
when the condensed-phase sequence is strictly longer, indexing the gas-phase
sequence fails (a Python `IndexError`, modelled as `none`); when it is
shorter or equal, mixing silently succeeds over the condensed-phase length,
dropping any trailing gas-phase charges. -/
theorem resp2_mismatch_behaviour (gpc isc : List ℚ) (d : ℚ) :
    (gpc.length < isc.length → mixRESP2 gpc isc d = none) ∧
      (isc.length ≤ gpc.length →
        mixRESP2 gpc isc d = some (mixVals gpc isc d) ∧
          (mixVals gpc isc d).length = isc.length) := by
  constructor
  · exact mixRESP2_of_lt gpc isc d
  · intro h
    exact ⟨mixRESP2_of_le gpc isc d h, mixVals_length gpc isc d⟩

/-- Claim C2, amended, witness: atom counts 5 (gas) and 6 (condensed) make
the mix fail with an index error, and counts 3 and 2 silently succeed. -/
theorem resp2_mismatch_behaviour_witness :
    mixRESP2 [1, 1, 1, 1, 1] [0, 0, 0, 0, 0, 0] (mkRat 1 2) = none ∧
      mixRESP2 [1, 1, 1] [0, 0] (mkRat 1 2) =
        some (mixVals [1, 1, 1] [0, 0] (mkRat 1 2)) :=
  ⟨(resp2_mismatch_behaviour [1, 1, 1, 1, 1] [0, 0, 0, 0, 0, 0] (mkRat 1 2)).1
     (by decide),
   ((resp2_mismatch_behaviour [1, 1, 1] [0, 0] (mkRat 1 2)).2 (by decide)).1⟩

/-- Claim C4: in RESP1 scaling mode, for every parsed charge sequence and
every scalar delta (no range clamp — any rational delta, also outside
`[0, 1]`, is accepted), the i-th output charge equals the i-th input charge
multiplied by delta. -/
theorem resp1_scaling (cs : List ℚ) (d : ℚ) :
    (scaleRESP1 cs d).length = cs.length ∧
      ∀ i, i < cs.length → (scaleRESP1 cs d).getD i 0 = cs.getD i 0 * d := by
  constructor
  · simp [scaleRESP1]
  · intro i hi
    simp [scaleRESP1, List.getD_eq_getElem?_getD, List.getElem?_map,
      List.getElem?_eq_getElem hi]

/-- Claim C4, witness: scaling `[0.5, -0.25]` by the out-of-range delta
`1.5` is accepted and multiplies elementwise. -/
theorem resp1_scaling_witness :
    (scaleRESP1 [mkRat 1 2, mkRat (-1) 4] (mkRat 3 2)).length = 2 ∧
      (scaleRESP1 [mkRat 1 2, mkRat (-1) 4] (mkRat 3 2)).getD 0 0 =
        ([mkRat 1 2, mkRat (-1) 4] : List ℚ).getD 0 0 * mkRat 3 2 :=
  ⟨(resp1_scaling [mkRat 1 2, mkRat (-1) 4] (mkRat 3 2)).1,
   (resp1_scaling [mkRat 1 2, mkRat (-1) 4] (mkRat 3 2)).2 0 (by decide)⟩

/-- Claim C5: the rewritten atom line for atom id 1, name "C1", coordinates
(0.1234, -1.2345, 3.0), type "C.3", subst id 1, residue "MOL" and charge
-0.1234 is exactly the fixed-width template line — id right-aligned in
width 7, name left-aligned in width 3, x/y/z right-aligned in widths
15/10/10, type left-aligned in width 3, subst id right-aligned in width 8,
the target residue right-aligned in width 5 replacing the original
subst name, and the charge to exactly 4 decimals right-aligned in width 14. -/
theorem atom_line_format :
    mkAtomLine "1" "C1" "0.1234" "-1.2345" "3.0" "C.3" "1" "MOL"
        (mkRat (-1234) 10000) =
      "      1 C1          0.1234   -1.2345       3.0 C.3       1  MOL       -0.1234 \n" ∧
    emitAtom? "MOL" (mkRat (-1234) 10000)
        "1 C1 0.1234 -1.2345 3.0 C.3 1 UNL -0.1234\n" =
      some
        "      1 C1          0.1234   -1.2345       3.0 C.3       1  MOL       -0.1234 \n" := by
  constructor
  · decide
  · decide

/-- Claim C6: an input with no line containing the `@<TRIPOS>ATOM` marker
yields zero parsed atoms, and charge mixing/scaling then operates on (and
produces) an empty sequence rather than raising an error. -/
theorem no_atom_marker_empty (lines : List String) (d : ℚ)
    (h : lines.all noAtomMarker = true) :
    parseCharges lines = some [] ∧ scaleRESP1 [] d = [] ∧
      mixRESP2 [] [] d = some [] := by
  refine ⟨?_, rfl, rfl⟩
  exact parseLoop_tail lines 0 [] (by decide) (by simpa using h)

/-- Claim C6, witness: a small marker-free file (even one with a
`@<TRIPOS>BOND` marker) parses to zero charges. -/
theorem no_atom_marker_empty_witness :
    parseCharges ["mol1\n", "some header text\n", "@<TRIPOS>BOND\n", "1 2 3\n"] =
        some [] ∧
      scaleRESP1 [] (mkRat 1 2) = [] ∧ mixRESP2 [] [] (mkRat 1 2) = some [] :=
  no_atom_marker_empty ["mol1\n", "some header text\n", "@<TRIPOS>BOND\n", "1 2 3\n"]
    (mkRat 1 2) (by decide)

/-- Claim C7, counterexample: the scanner DOES make a back-transition.  On a
file whose trailer contains a second `@<TRIPOS>ATOM` marker line, the line
after it is parsed as an atom: the full file yields charges `[0.5, 0.25]`
although the same file truncated before the second marker yields `[0.5]` —
under the claimed "once TRAILER, never ATOM again" the second charge could
not have been extracted. -/
theorem scanner_back_transition_counterexample :
    parseCharges ["@<TRIPOS>ATOM\n", "1 C1 0.0 0.0 0.0 C.3 1 UNL 0.5\n",
        "@<TRIPOS>BOND\n", "1 1 2 1\n", "@<TRIPOS>ATOM\n",
        "2 H1 0.0 0.0 0.0 H 1 UNL 0.25\n"] = some [mkRat 1 2, mkRat 1 4] ∧
      parseCharges ["@<TRIPOS>ATOM\n", "1 C1 0.0 0.0 0.0 C.3 1 UNL 0.5\n",
        "@<TRIPOS>BOND\n", "1 1 2 1\n"] = some [mkRat 1 2] := by
  constructor
  · decide
  · decide

/-- Claim C7, amended: the scanner stays in TRAILER mode only as long as no
later line contains the `@<TRIPOS>ATOM` marker; a line containing that
marker sends it back to ATOM mode from any state (a back-transition); and
every line seen in ATOM mode that matches neither marker is consumed as an
atom data line. -/
theorem scanner_transitions (acc : List ℚ) (line : String) (rest : List String) :
    (∀ ls, (∀ l ∈ ls, noAtomMarker l = true) → parseLoop 2 acc ls = some acc) ∧
      (containsSub line atomMarker = true →
        parseLoop 2 acc (line :: rest) = parseLoop 1 acc rest) ∧
      (∀ q, containsSub line atomMarker = false →
        containsSub line bondMarker = false →
        ((pySplit line)[8]?).bind parsePyFloat = some q →
        parseLoop 1 acc (line :: rest) = parseLoop 1 (acc ++ [q]) rest) := by
  refine ⟨?_, ?_, ?_⟩
  · intro ls hls
    exact parseLoop_tail ls 2 acc (by decide) hls
  · intro h
    simp [parseLoop, h]
  · intro q h1 h2 hq
    obtain ⟨tok, htok, hq'⟩ := Option.bind_eq_some.mp hq
    simp [parseLoop, h1, h2, htok, hq']

/-- Claim C7, amended, witness: concrete instances of all three transition
facts. -/
theorem scanner_transitions_witness :
    parseLoop 2 [mkRat 1 2] ["1 1 2 1\n", "@<TRIPOS>BOND\n"] = some [mkRat 1 2] ∧
      parseLoop 2 [mkRat 1 2] ["@<TRIPOS>ATOM\n"] = parseLoop 1 [mkRat 1 2] [] ∧
      parseLoop 1 [] ["1 C 0.0 0.0 0.0 C 1 UNL 0.5\n"] =
        parseLoop 1 ([] ++ [mkRat 1 2]) [] :=
  ⟨(scanner_transitions [mkRat 1 2] "@<TRIPOS>ATOM\n" []).1
     ["1 1 2 1\n", "@<TRIPOS>BOND\n"] (by decide),
   (scanner_transitions [mkRat 1 2] "@<TRIPOS>ATOM\n" []).2.1 (by decide),
   (scanner_transitions [] "1 C 0.0 0.0 0.0 C 1 UNL 0.5\n" []).2.2 (mkRat 1 2)
     (by decide) (by decide) (by decide)⟩

/-- Claim C10: the rewritten atom line is built from the first seven
whitespace-delimited tokens of the input line, the target residue name and
the newly computed charge only — every token from the eighth onward
(including any trailing status-bit columns past the ninth) is dropped. -/
theorem trailing_tokens_dropped (l : String) (e0 e1 e2 e3 e4 e5 e6 : String)
    (rest : List String) (rn : String) (q : ℚ)
    (hl : pySplit l = e0 :: e1 :: e2 :: e3 :: e4 :: e5 :: e6 :: rest) :
    emitAtom? rn q l = some (mkAtomLine e0 e1 e2 e3 e4 e5 e6 rn q) := by
  simp [emitAtom?, hl, emitTokens?]

/-- Claim C10, witness: an 11-token atom line (two trailing status columns)
is re-emitted exactly as its 7-token truncation would be — the trailing
columns are absent from the output. -/
theorem trailing_tokens_dropped_witness :
    emitAtom? "MOL" (mkRat 1 2) "1 C1 0.1 0.2 0.3 C.3 1 UNL 0.9 BIT1 BIT2\n" =
      some (mkAtomLine "1" "C1" "0.1" "0.2" "0.3" "C.3" "1" "MOL" (mkRat 1 2)) :=
  trailing_tokens_dropped "1 C1 0.1 0.2 0.3 C.3 1 UNL 0.9 BIT1 BIT2\n"
    "1" "C1" "0.1" "0.2" "0.3" "C.3" "1" ["UNL", "0.9", "BIT1", "BIT2"]
    "MOL" (mkRat 1 2) (by decide)

/-- Claim C3: on a valid MOL2 input (two-plus header lines without markers,
an atom-marker line, well-formed atom lines, a bond-marker line, a trailer
without atom markers, and a residue name free of markers), the run succeeds,
the number of output atom lines equals the number of input atom lines, and
every non-atom line — header except the molecule-name substitution at line
index 1, both marker lines, and everything from the bond section on — is
copied byte-identically. -/
theorem structural_preservation (h0 h1 : String) (hs atoms trailer : List String)
    (am bm rn : String) (d : ℚ)
    (hh0 : noMarkers h0 = true) (hh1 : noMarkers h1 = true)
    (hhs : hs.all noMarkers = true)
    (ham : containsSub am atomMarker = true)
    (hbm1 : containsSub bm atomMarker = false)
    (hbm2 : containsSub bm bondMarker = true)
    (htr : trailer.all noAtomMarker = true)
    (hat : atoms.all goodAtom = true)
    (hrn : noMarkers (rn ++ "\n") = true) :
    ∃ fmt : List String,
      resp1Run (h0 :: h1 :: hs ++ am :: (atoms ++ bm :: trailer)) rn d =
        ⟨(h0 :: (if substCond h1 then rn ++ "\n" else h1) :: hs) ++
          am :: (fmt ++ bm :: trailer), true⟩ ∧
      fmt.length = atoms.length := by
  have hhs' : ∀ l ∈ hs, noMarkers l = true := by simpa using hhs
  have htr' : ∀ l ∈ trailer, noAtomMarker l = true := by simpa using htr
  have hat' : ∀ l ∈ atoms, goodAtom l = true := by simpa using hat
  have hparse := parseCharges_structured h0 h1 hs atoms trailer am bm hh0 hh1 hhs'
    ham hbm1 hbm2 htr' hat'
  refine ⟨fmtFrom rn (scaleRESP1 (atoms.map chargeOf) d) 0 atoms, ?_,
    fmtFrom_length rn (scaleRESP1 (atoms.map chargeOf) d) 0 atoms⟩
  unfold resp1Run
  rw [hparse]
  dsimp only
  by_cases hc : substCond h1
  · have hW := writeLoop_structured rn (scaleRESP1 (atoms.map chargeOf) d) h0
      (rn ++ "\n") hs atoms trailer am bm hh0 hrn hhs' ham hbm1 hbm2 htr' hat'
      (by simp [scaleRESP1])
    simp only [List.cons_append] at hW
    simp only [List.cons_append, substituteName_cons, hc, if_true]
    rw [hW]
  · have hW := writeLoop_structured rn (scaleRESP1 (atoms.map chargeOf) d) h0 h1
      hs atoms trailer am bm hh0 hh1 hhs' ham hbm1 hbm2 htr' hat'
      (by simp [scaleRESP1])
    simp only [List.cons_append] at hW
    simp only [List.cons_append, substituteName_cons, hc, Bool.false_eq_true, if_false]
    rw [hW]

/-- Claim C3, witness: a concrete valid two-atom file is rewritten with the
same structure and two atom lines. -/
theorem structural_preservation_witness :
    ∃ fmt : List String,
      resp1Run ("mol1\n" :: "***\n" :: ["extra header\n"] ++ "@<TRIPOS>ATOM\n" ::
          (["1 C1 0.0 0.0 0.0 C.3 1 UNL 0.5\n", "2 H1 0.0 0.0 0.0 H 1 UNL -0.5\n"] ++
            "@<TRIPOS>BOND\n" :: ["1 1 2 1\n"])) "MOL" (mkRat 1 2) =
        ⟨("mol1\n" :: (if substCond "***\n" then "MOL" ++ "\n" else "***\n") ::
          ["extra header\n"]) ++ "@<TRIPOS>ATOM\n" ::
            (fmt ++ "@<TRIPOS>BOND\n" :: ["1 1 2 1\n"]), true⟩ ∧
      fmt.length = 2 :=
  structural_preservation "mol1\n" "***\n" ["extra header\n"]
    ["1 C1 0.0 0.0 0.0 C.3 1 UNL 0.5\n", "2 H1 0.0 0.0 0.0 H 1 UNL -0.5\n"]
    ["1 1 2 1\n"] "@<TRIPOS>ATOM\n" "@<TRIPOS>BOND\n" "MOL" (mkRat 1 2)
    (by decide) (by decide) (by decide) (by decide) (by decide) (by decide)
    (by decide) (by decide) (by decide)

/-- Claim C8, counterexample: `create_charge_file` opens the output at its
final path before parsing and writes into it as it goes, so a failing call
leaves a partial output file on disk.  Concretely, a gas file with two atoms
and a liquid file with one atom make the call fail (`ok = false`) after four
lines — two header lines, the atom marker, one rewritten atom line — have
already been written to the output file; no temporary path or rename exists
anywhere in the code. -/
theorem partial_output_counterexample :
    (resp2Run
      ["mol1\n", "***\n", "@<TRIPOS>ATOM\n", "1 C1 0.0 0.0 0.0 C.3 1 UNL 0.5\n",
        "2 H1 0.0 0.0 0.0 H 1 UNL 0.5\n", "@<TRIPOS>BOND\n", "1 1 2 1\n"]
      ["mol1\n", "***\n", "@<TRIPOS>ATOM\n", "1 C1 0.0 0.0 0.0 C.3 1 UNL 0.25\n",
        "@<TRIPOS>BOND\n"]
      "MOL" (mkRat 1 2)).ok = false ∧
    (resp2Run
      ["mol1\n", "***\n", "@<TRIPOS>ATOM\n", "1 C1 0.0 0.0 0.0 C.3 1 UNL 0.5\n",
        "2 H1 0.0 0.0 0.0 H 1 UNL 0.5\n", "@<TRIPOS>BOND\n", "1 1 2 1\n"]
      ["mol1\n", "***\n", "@<TRIPOS>ATOM\n", "1 C1 0.0 0.0 0.0 C.3 1 UNL 0.25\n",
        "@<TRIPOS>BOND\n"]
      "MOL" (mkRat 1 2)).content.length = 4 := by
  constructor
  · decide
  · decide

/-- Claim C8, amended: no temporary path and no rename are used — the output
is opened directly at its final path before parsing, so a failing invocation
leaves the partially written output on disk.  In particular, on a valid gas
file whose liquid counterpart parses to fewer charges than there are atom
lines, the call fails after writing the header (with name substitution), the
atom-marker line and the first `isc.length` rewritten atom lines. -/
theorem no_temp_path_partial_output (h0 h1 : String) (hs atoms trailer : List String)
    (am bm rn : String) (d : ℚ) (liquid : List String) (isc : List ℚ)
    (hh0 : noMarkers h0 = true) (hh1 : noMarkers h1 = true)
    (hhs : hs.all noMarkers = true)
    (ham : containsSub am atomMarker = true)
    (hbm1 : containsSub bm atomMarker = false)
    (hbm2 : containsSub bm bondMarker = true)
    (htr : trailer.all noAtomMarker = true)
    (hat : atoms.all goodAtom = true)
    (hrn : noMarkers (rn ++ "\n") = true)
    (hliq : parseCharges liquid = some isc)
    (hlen : isc.length < atoms.length) :
    resp2Run (h0 :: h1 :: hs ++ am :: (atoms ++ bm :: trailer)) liquid rn d =
      ⟨(h0 :: (if substCond h1 then rn ++ "\n" else h1) :: hs) ++
        am :: fmtFrom rn (mixVals (atoms.map chargeOf) isc d) 0
          (atoms.take isc.length), false⟩ := by
  have hhs' : ∀ l ∈ hs, noMarkers l = true := by simpa using hhs
  have htr' : ∀ l ∈ trailer, noAtomMarker l = true := by simpa using htr
  have hat' : ∀ l ∈ atoms, goodAtom l = true := by simpa using hat
  have hparse := parseCharges_structured h0 h1 hs atoms trailer am bm hh0 hh1 hhs'
    ham hbm1 hbm2 htr' hat'
  have hgl : (atoms.map chargeOf).length = atoms.length := List.length_map atoms chargeOf
  have hmix := mixRESP2_of_le (atoms.map chargeOf) isc d (by omega)
  have hml := mixVals_length (atoms.map chargeOf) isc d
  unfold resp2Run
  rw [hparse, hliq]
  dsimp only
  rw [hmix]
  dsimp only
  by_cases hc : substCond h1
  · have hW := writeLoop_structured_fail rn (mixVals (atoms.map chargeOf) isc d) h0
      (rn ++ "\n") hs atoms trailer am bm hh0 hrn hhs' ham hat' (by omega)
    rw [hml] at hW
    simp only [List.cons_append] at hW
    simp only [List.cons_append, substituteName_cons, hc, if_true]
    rw [hW]
  · have hW := writeLoop_structured_fail rn (mixVals (atoms.map chargeOf) isc d) h0 h1
      hs atoms trailer am bm hh0 hh1 hhs' ham hat' (by omega)
    rw [hml] at hW
    simp only [List.cons_append] at hW
    simp only [List.cons_append, substituteName_cons, hc, Bool.false_eq_true, if_false]
    rw [hW]

/-- Claim C8, amended, witness: the concrete two-atom gas / one-atom liquid
instance, with the partial content spelled out by the theorem. -/
theorem no_temp_path_partial_output_witness :
    resp2Run ("mol1\n" :: "***\n" :: [] ++ "@<TRIPOS>ATOM\n" ::
        (["1 C1 0.0 0.0 0.0 C.3 1 UNL 0.5\n", "2 H1 0.0 0.0 0.0 H 1 UNL 0.5\n"] ++
          "@<TRIPOS>BOND\n" :: ["1 1 2 1\n"]))
      ["mol1\n", "***\n", "@<TRIPOS>ATOM\n", "1 C1 0.0 0.0 0.0 C.3 1 UNL 0.25\n",
        "@<TRIPOS>BOND\n"]
      "MOL" (mkRat 1 2) =
      ⟨("mol1\n" :: (if substCond "***\n" then "MOL" ++ "\n" else "***\n") :: []) ++
        "@<TRIPOS>ATOM\n" ::
          fmtFrom "MOL"
            (mixVals
              (["1 C1 0.0 0.0 0.0 C.3 1 UNL 0.5\n",
                "2 H1 0.0 0.0 0.0 H 1 UNL 0.5\n"].map chargeOf)
              [mkRat 1 4] (mkRat 1 2)) 0
            (["1 C1 0.0 0.0 0.0 C.3 1 UNL 0.5\n",
              "2 H1 0.0 0.0 0.0 H 1 UNL 0.5\n"].take 1), false⟩ :=
  no_temp_path_partial_output "mol1\n" "***\n" []
    ["1 C1 0.0 0.0 0.0 C.3 1 UNL 0.5\n", "2 H1 0.0 0.0 0.0 H 1 UNL 0.5\n"]
    ["1 1 2 1\n"] "@<TRIPOS>ATOM\n" "@<TRIPOS>BOND\n" "MOL" (mkRat 1 2)
    ["mol1\n", "***\n", "@<TRIPOS>ATOM\n", "1 C1 0.0 0.0 0.0 C.3 1 UNL 0.25\n",
      "@<TRIPOS>BOND\n"]
    [mkRat 1 4]
    (by decide) (by decide) (by decide) (by decide) (by decide) (by decide)
    (by decide) (by decide) (by decide) (by decide) (by decide)

/-- Claim C9: in RESP2 mode every part of the output other than the charge
column and the residue-name field comes from the gas-phase file.  First, the
whole run depends on the condensed-phase file only through its parsed charge
values.  Second, on a valid gas file the output is exactly the gas file's
header (with name substitution), its atom-marker line, its atom lines
re-emitted from their own tokens with only the residue name and the mixed
charge replaced, its bond-marker line and its trailer, copied verbatim. -/
theorem resp2_gas_frame :
    (∀ (gas l1 l2 : List String) (rn : String) (d : ℚ),
        parseCharges l1 = parseCharges l2 →
        resp2Run gas l1 rn d = resp2Run gas l2 rn d) ∧
      (∀ (h0 h1 : String) (hs atoms trailer : List String) (am bm rn : String)
          (d : ℚ) (liquid : List String) (isc : List ℚ),
        noMarkers h0 = true → noMarkers h1 = true → hs.all noMarkers = true →
        containsSub am atomMarker = true → containsSub bm atomMarker = false →
        containsSub bm bondMarker = true → trailer.all noAtomMarker = true →
        atoms.all goodAtom = true → noMarkers (rn ++ "\n") = true →
        parseCharges liquid = some isc → isc.length = atoms.length →
        resp2Run (h0 :: h1 :: hs ++ am :: (atoms ++ bm :: trailer)) liquid rn d =
          ⟨(h0 :: (if substCond h1 then rn ++ "\n" else h1) :: hs) ++
            am :: (fmtFrom rn (mixVals (atoms.map chargeOf) isc d) 0 atoms ++
              bm :: trailer), true⟩) := by
  constructor
  · intro gas l1 l2 rn d h
    unfold resp2Run
    rw [h]
  · intro h0 h1 hs atoms trailer am bm rn d liquid isc hh0 hh1 hhs ham hbm1 hbm2
      htr hat hrn hliq hlen
    have hhs' : ∀ l ∈ hs, noMarkers l = true := by simpa using hhs
    have htr' : ∀ l ∈ trailer, noAtomMarker l = true := by simpa using htr
    have hat' : ∀ l ∈ atoms, goodAtom l = true := by simpa using hat
    have hparse := parseCharges_structured h0 h1 hs atoms trailer am bm hh0 hh1 hhs'
      ham hbm1 hbm2 htr' hat'
    have hgl : (atoms.map chargeOf).length = atoms.length :=
      List.length_map atoms chargeOf
    have hmix := mixRESP2_of_le (atoms.map chargeOf) isc d (by omega)
    have hml : (mixVals (atoms.map chargeOf) isc d).length = atoms.length := by
      rw [mixVals_length]; exact hlen
    unfold resp2Run
    rw [hparse, hliq]
    dsimp only
    rw [hmix]
    dsimp only
    by_cases hc : substCond h1
    · have hW := writeLoop_structured rn (mixVals (atoms.map chargeOf) isc d) h0
        (rn ++ "\n") hs atoms trailer am bm hh0 hrn hhs' ham hbm1 hbm2 htr' hat' hml
      simp only [List.cons_append] at hW
      simp only [List.cons_append, substituteName_cons, hc, if_true]
      rw [hW]
    · have hW := writeLoop_structured rn (mixVals (atoms.map chargeOf) isc d) h0 h1
        hs atoms trailer am bm hh0 hh1 hhs' ham hbm1 hbm2 htr' hat' hml
      simp only [List.cons_append] at hW
      simp only [List.cons_append, substituteName_cons, hc, Bool.false_eq_true, if_false]
      rw [hW]

/-- Claim C9, witness: two condensed-phase files with different geometry and
trailer but equal charge values give identical runs, and a concrete valid
gas file is rewritten entirely from its own lines. -/
theorem resp2_gas_frame_witness :
    resp2Run
        ["mol1\n", "***\n", "@<TRIPOS>ATOM\n", "1 C1 0.0 0.0 0.0 C.3 1 UNL 0.5\n",
          "@<TRIPOS>BOND\n"]
        ["x\n", "y\n", "@<TRIPOS>ATOM\n", "9 ZZ 9.9 9.9 9.9 Z 9 ZZZ 0.25\n",
          "@<TRIPOS>BOND\n", "trailing junk\n"]
        "MOL" (mkRat 1 2) =
      resp2Run
        ["mol1\n", "***\n", "@<TRIPOS>ATOM\n", "1 C1 0.0 0.0 0.0 C.3 1 UNL 0.5\n",
          "@<TRIPOS>BOND\n"]
        ["a\n", "b\n", "@<TRIPOS>ATOM\n", "1 C1 0.0 0.0 0.0 C.3 1 UNL 0.25\n",
          "@<TRIPOS>BOND\n"]
        "MOL" (mkRat 1 2) ∧
    resp2Run ("mol1\n" :: "***\n" :: [] ++ "@<TRIPOS>ATOM\n" ::
        (["1 C1 0.0 0.0 0.0 C.3 1 UNL 0.5\n"] ++ "@<TRIPOS>BOND\n" :: ["1 1 2 1\n"]))
      ["a\n", "b\n", "@<TRIPOS>ATOM\n", "1 C1 0.0 0.0 0.0 C.3 1 UNL 0.25\n",
        "@<TRIPOS>BOND\n"]
      "MOL" (mkRat 1 2) =
      ⟨("mol1\n" :: (if substCond "***\n" then "MOL" ++ "\n" else "***\n") :: []) ++
        "@<TRIPOS>ATOM\n" ::
          (fmtFrom "MOL"
            (mixVals (["1 C1 0.0 0.0 0.0 C.3 1 UNL 0.5\n"].map chargeOf)
              [mkRat 1 4] (mkRat 1 2)) 0 ["1 C1 0.0 0.0 0.0 C.3 1 UNL 0.5\n"] ++
            "@<TRIPOS>BOND\n" :: ["1 1 2 1\n"]), true⟩ :=
  ⟨resp2_gas_frame.1
     ["mol1\n", "***\n", "@<TRIPOS>ATOM\n", "1 C1 0.0 0.0 0.0 C.3 1 UNL 0.5\n",
       "@<TRIPOS>BOND\n"]
     ["x\n", "y\n", "@<TRIPOS>ATOM\n", "9 ZZ 9.9 9.9 9.9 Z 9 ZZZ 0.25\n",
       "@<TRIPOS>BOND\n", "trailing junk\n"]
     ["a\n", "b\n", "@<TRIPOS>ATOM\n", "1 C1 0.0 0.0 0.0 C.3 1 UNL 0.25\n",
       "@<TRIPOS>BOND\n"]
     "MOL" (mkRat 1 2) (by decide),
   resp2_gas_frame.2 "mol1\n" "***\n" [] ["1 C1 0.0 0.0 0.0 C.3 1 UNL 0.5\n"]
     ["1 1 2 1\n"] "@<TRIPOS>ATOM\n" "@<TRIPOS>BOND\n" "MOL" (mkRat 1 2)
     ["a\n", "b\n", "@<TRIPOS>ATOM\n", "1 C1 0.0 0.0 0.0 C.3 1 UNL 0.25\n",
       "@<TRIPOS>BOND\n"]
     [mkRat 1 4]
     (by decide) (by decide) (by decide) (by decide) (by decide) (by decide)
     (by decide) (by decide) (by decide) (by decide) (by decide)⟩

end Resp2
